import Mathlib

/-!
Shallow embedding of the MPR121 channel debounce engine
(`MPR121_Config.h` / `MPR121_Control.cpp`).

Modelling conventions:
* C++ `float` quantities (`value[]`, `threshold[]`, `alpha`) are modelled as
  exact rationals; the smoothing coefficient `0.6` becomes `3/5`.
* machine integers are `Nat`; overflow is made explicit where it can occur
  (the `uint8_t` counter increments modulo 256, `uint8_t` / `uint16_t`
  parameters are truncated with `% 256` / `% 65536` at the call boundary).
* the hardware sample provider `cap.filteredData(i)` is modelled as an
  explicit argument: a seed sample per channel at construction and one raw
  sample per channel per `update()` call.
* the uninitialised contents of the per-channel C arrays are modelled by a
  `garbage` state argument to the constructor: a slot of a channel outside
  the active mask keeps its arbitrary garbage content.
-/

namespace MPR121

/-- Number of ports on the board (`static const uint8_t maxPort = 12`). -/
abbrev maxPort : Nat := 12

/-- Smoothing coefficient (`const float alpha = 0.6`), as an exact rational. -/
def alpha : ℚ := 3 / 5

/-- Arduino's `constrain(amt, low, high)` macro:
`(amt < low) ? low : ((amt > high) ? high : amt)`. -/
def constrain (amt low high : ℚ) : ℚ :=
  if amt < low then low else if high < amt then high else amt

/-- The private state of `MPR121Manager`: the bitmask of active ports, the
I2C address, and the per-channel arrays. -/
structure MPRState where
  activePort : Nat
  address : Nat
  value : Fin maxPort → ℚ
  minValue : Fin maxPort → Nat
  maxValue : Fin maxPort → Nat
  currentTouched : Nat
  counter : Fin maxPort → Nat
  threshold : Fin maxPort → ℚ
  touchMargin : Fin maxPort → Nat
  releaseMargin : Fin maxPort → Nat
  touchJuge : Fin maxPort → Nat
  releaseJuge : Fin maxPort → Nat

/-- The constructor `MPR121Manager::MPR121Manager(setAddress, usedPortMask)`.
`seed` is the raw sample `cap.filteredData(i)` obtained once per active
channel; `g` holds the arbitrary contents of the uninitialised arrays
(channels outside the mask are not written).  `currentTouched` has the
in-class initialiser `= 0`. -/
def construct (setAddress usedPortMask : Nat) (seed : Fin maxPort → Nat)
    (g : MPRState) : MPRState :=
  let mask := usedPortMask % 65536
  { activePort := mask
    address := setAddress % 256
    currentTouched := 0
    value := fun i => if mask.testBit i.val then constrain (seed i) 600 710 else g.value i
    minValue := fun i => if mask.testBit i.val then 600 else g.minValue i
    maxValue := fun i => if mask.testBit i.val then 710 else g.maxValue i
    counter := fun i => if mask.testBit i.val then 0 else g.counter i
    threshold := fun i =>
      if mask.testBit i.val then constrain (seed i) 600 710 - 30 else g.threshold i
    touchMargin := fun i => if mask.testBit i.val then 30 else g.touchMargin i
    releaseMargin := fun i => if mask.testBit i.val then 20 else g.releaseMargin i
    touchJuge := fun i => if mask.testBit i.val then 15 else g.touchJuge i
    releaseJuge := fun i => if mask.testBit i.val then 15 else g.releaseJuge i }

/-- The body of the `update()` loop for one active channel `i` with fresh raw
sample `raw` (`MPR121_Control.cpp` lines 59-93): smoothing, clamping,
state-dependent comparison, counter update (`uint8_t`, hence `% 256`), and
the confirmed flip with threshold re-arming. -/
def updateChannel (raw : Nat) (i : Fin maxPort) (s : MPRState) : MPRState :=
  let v : ℚ := constrain (alpha * raw + (1 - alpha) * s.value i)
      (s.minValue i) (s.maxValue i)
  let touched : Bool := s.currentTouched.testBit i.val
  let conditionMet : Bool :=
    if touched then decide (s.threshold i < v) else decide (v < s.threshold i)
  let c : Nat := if conditionMet then (s.counter i + 1) % 256 else 0
  if (!touched && decide (s.touchJuge i < c)) ||
      (touched && decide (s.releaseJuge i < c)) then
    { s with
      value := fun j => if j = i then v else s.value j
      counter := fun j => if j = i then 0 else s.counter j
      currentTouched := s.currentTouched ^^^ (1 <<< i.val)
      threshold := fun j =>
        if j = i then
          (if touched then v - (s.touchMargin i : ℚ) else v + (s.releaseMargin i : ℚ))
        else s.threshold j }
  else
    { s with
      value := fun j => if j = i then v else s.value j
      counter := fun j => if j = i then c else s.counter j }

/-- One iteration of the `update()` loop: channel `i` is processed only when
`(activePort >> i) & 1`. -/
def tick (raws : Fin maxPort → Nat) (st : MPRState) (i : Fin maxPort) : MPRState :=
  if st.activePort.testBit i.val then updateChannel (raws i) i st else st

/-- The method `MPR121Manager::update()`: the loop `for i = 0 .. maxPort-1`, processing
every active channel with its fresh raw sample `raws i`. -/
def update (raws : Fin maxPort → Nat) (s : MPRState) : MPRState :=
  (List.finRange maxPort).foldl (tick raws) s

/-- The method `MPR121Manager::isTouched(port)`. -/
def isTouched (s : MPRState) (port : Nat) : Bool :=
  if port < maxPort ∧ s.activePort.testBit port then
    s.currentTouched.testBit port
  else false

/-- The setter `MPR121Manager::setTouchMargin(port, margin)`: store the new margin
(`uint8_t` argument) and re-arm the threshold from the current state. -/
def setTouchMargin (s : MPRState) (port margin : Nat) : MPRState :=
  if port < maxPort ∧ s.activePort.testBit port then
    let tm : Fin maxPort → Nat :=
      fun j => if j.val = port then margin % 256 else s.touchMargin j
    let touched : Bool := s.currentTouched.testBit port
    { s with
      touchMargin := tm
      threshold := fun j =>
        if j.val = port then
          (if touched then s.value j + (s.releaseMargin j : ℚ)
           else s.value j - (tm j : ℚ))
        else s.threshold j }
  else s

/-- The setter `MPR121Manager::setReleaseMargin(port, margin)`. -/
def setReleaseMargin (s : MPRState) (port margin : Nat) : MPRState :=
  if port < maxPort ∧ s.activePort.testBit port then
    let rm : Fin maxPort → Nat :=
      fun j => if j.val = port then margin % 256 else s.releaseMargin j
    let touched : Bool := s.currentTouched.testBit port
    { s with
      releaseMargin := rm
      threshold := fun j =>
        if j.val = port then
          (if touched then s.value j + (rm j : ℚ)
           else s.value j - (s.touchMargin j : ℚ))
        else s.threshold j }
  else s

/-- The setter `MPR121Manager::setSensorMinValue(port, value)` (`uint16_t` argument). -/
def setSensorMinValue (s : MPRState) (port v : Nat) : MPRState :=
  if port < maxPort ∧ s.activePort.testBit port then
    { s with minValue := fun j => if j.val = port then v % 65536 else s.minValue j }
  else s

/-- The setter `MPR121Manager::setSensorMaxValue(port, value)` (`uint16_t` argument). -/
def setSensorMaxValue (s : MPRState) (port v : Nat) : MPRState :=
  if port < maxPort ∧ s.activePort.testBit port then
    { s with maxValue := fun j => if j.val = port then v % 65536 else s.maxValue j }
  else s

/-- The setter `MPR121Manager::setTouchJugeCount(port, count)` (`uint8_t` argument). -/
def setTouchJugeCount (s : MPRState) (port count : Nat) : MPRState :=
  if port < maxPort ∧ s.activePort.testBit port then
    { s with touchJuge := fun j => if j.val = port then count % 256 else s.touchJuge j }
  else s

/-- The setter `MPR121Manager::setReleaseJugeCount(port, count)` (`uint8_t` argument). -/
def setReleaseJugeCount (s : MPRState) (port count : Nat) : MPRState :=
  if port < maxPort ∧ s.activePort.testBit port then
    { s with releaseJuge := fun j => if j.val = port then count % 256 else s.releaseJuge j }
  else s

/-- The state the engine keeps for one channel: the projection of the
parallel arrays at one index. -/
structure Chan where
  value : ℚ
  minValue : Nat
  maxValue : Nat
  touched : Bool
  counter : Nat
  threshold : ℚ
  touchMargin : Nat
  releaseMargin : Nat
  touchJuge : Nat
  releaseJuge : Nat
deriving DecidableEq

/-- Projection of the engine state at channel `i`. -/
def proj (s : MPRState) (i : Fin maxPort) : Chan :=
  { value := s.value i
    minValue := s.minValue i
    maxValue := s.maxValue i
    touched := s.currentTouched.testBit i.val
    counter := s.counter i
    threshold := s.threshold i
    touchMargin := s.touchMargin i
    releaseMargin := s.releaseMargin i
    touchJuge := s.touchJuge i
    releaseJuge := s.releaseJuge i }

/-- The per-channel body of `update()`, on the single-channel view. -/
def stepChan (raw : Nat) (c : Chan) : Chan :=
  let v : ℚ := constrain (alpha * raw + (1 - alpha) * c.value)
      (c.minValue : ℚ) (c.maxValue : ℚ)
  let conditionMet : Bool :=
    if c.touched then decide (c.threshold < v) else decide (v < c.threshold)
  let k : Nat := if conditionMet then (c.counter + 1) % 256 else 0
  if (!c.touched && decide (c.touchJuge < k)) ||
      (c.touched && decide (c.releaseJuge < k)) then
    { c with
      value := v
      counter := 0
      touched := !c.touched
      threshold :=
        if c.touched then v - (c.touchMargin : ℚ) else v + (c.releaseMargin : ℚ) }
  else
    { c with value := v, counter := k }

/-- Run `update()` once per element of `l`, each element supplying the raw
samples of that cycle. -/
def runUpdates (s : MPRState) (l : List (Fin maxPort → Nat)) : MPRState :=
  l.foldl (fun st raws => update raws st) s

/-- Run the single-channel step over a list of raw samples. -/
def chanRun (c : Chan) (raws : List Nat) : Chan :=
  raws.foldl (fun a r => stepChan r a) c

/-- A concrete all-zero state, used as the garbage contents of the
uninitialised arrays in concrete scenarios. -/
def blank : MPRState :=
  { activePort := 0, address := 0, value := fun _ => 0, minValue := fun _ => 0,
    maxValue := fun _ => 0, currentTouched := 0, counter := fun _ => 0,
    threshold := fun _ => 0, touchMargin := fun _ => 0, releaseMargin := fun _ => 0,
    touchJuge := fun _ => 0, releaseJuge := fun _ => 0 }

/-! ### Basic lemmas about `constrain` and the per-channel step -/

theorem constrain_le_of_le {lo hi : ℚ} (x : ℚ) (h : lo ≤ hi) :
    lo ≤ constrain x lo hi ∧ constrain x lo hi ≤ hi := by
  unfold constrain
  split
  · exact ⟨le_refl _, h⟩
  · rename_i h1
    split
    · exact ⟨h, le_refl _⟩
    · rename_i h2
      exact ⟨le_of_not_lt h1, le_of_not_lt h2⟩

theorem constrain_eq_max {lo hi : ℚ} (x : ℚ) (h : x ≤ hi) :
    constrain x lo hi = max lo x := by
  unfold constrain
  rcases lt_or_le x lo with h1 | h1
  · rw [if_pos h1, max_eq_left h1.le]
  · rw [if_neg (not_lt.mpr h1), if_neg (not_lt.mpr h), max_eq_right h1]

theorem testBit_xor_shift_self (x n : Nat) :
    (x ^^^ (1 <<< n)).testBit n = !(x.testBit n) := by
  simp [Nat.testBit_xor, Nat.one_shiftLeft, Nat.testBit_two_pow]

theorem testBit_xor_shift_ne (x n m : Nat) (h : n ≠ m) :
    (x ^^^ (1 <<< n)).testBit m = x.testBit m := by
  simp [Nat.testBit_xor, Nat.one_shiftLeft, Nat.testBit_two_pow, h]

/-- The step `stepChan` never modifies the channel parameters (bounds, margins,
confirm counts). -/
theorem stepChan_params (raw : Nat) (c : Chan) :
    (stepChan raw c).minValue = c.minValue ∧
    (stepChan raw c).maxValue = c.maxValue ∧
    (stepChan raw c).touchMargin = c.touchMargin ∧
    (stepChan raw c).releaseMargin = c.releaseMargin ∧
    (stepChan raw c).touchJuge = c.touchJuge ∧
    (stepChan raw c).releaseJuge = c.releaseJuge := by
  refine ⟨?_, ?_, ?_, ?_, ?_, ?_⟩ <;> simp only [stepChan] <;> (repeat' split) <;> rfl

/-- The body `updateChannel` modifies none of `activePort`, `address`, nor the
parameter arrays. -/
theorem updateChannel_globals (raw : Nat) (i : Fin maxPort) (s : MPRState) :
    (updateChannel raw i s).activePort = s.activePort ∧
    (updateChannel raw i s).address = s.address ∧
    (updateChannel raw i s).minValue = s.minValue ∧
    (updateChannel raw i s).maxValue = s.maxValue ∧
    (updateChannel raw i s).touchMargin = s.touchMargin ∧
    (updateChannel raw i s).releaseMargin = s.releaseMargin ∧
    (updateChannel raw i s).touchJuge = s.touchJuge ∧
    (updateChannel raw i s).releaseJuge = s.releaseJuge := by
  refine ⟨?_, ?_, ?_, ?_, ?_, ?_, ?_, ?_⟩ <;> simp only [updateChannel] <;>
    (repeat' split) <;> rfl

theorem tick_globals (raws : Fin maxPort → Nat) (s : MPRState) (i : Fin maxPort) :
    (tick raws s i).activePort = s.activePort ∧
    (tick raws s i).address = s.address ∧
    (tick raws s i).minValue = s.minValue ∧
    (tick raws s i).maxValue = s.maxValue ∧
    (tick raws s i).touchMargin = s.touchMargin ∧
    (tick raws s i).releaseMargin = s.releaseMargin ∧
    (tick raws s i).touchJuge = s.touchJuge ∧
    (tick raws s i).releaseJuge = s.releaseJuge := by
  unfold tick
  split
  · exact updateChannel_globals _ _ _
  · exact ⟨rfl, rfl, rfl, rfl, rfl, rfl, rfl, rfl⟩

/-- The loop body of `update()` matches the single-channel step at the
processed channel. -/
theorem proj_updateChannel_self (raw : Nat) (i : Fin maxPort) (s : MPRState) :
    proj (updateChannel raw i s) i = stepChan raw (proj s i) := by
  simp only [updateChannel, stepChan, proj]
  repeat' split
  all_goals simp_all [testBit_xor_shift_self]

/-- The loop body of `update()` leaves all other channels untouched. -/
theorem proj_updateChannel_ne (raw : Nat) (i j : Fin maxPort) (s : MPRState)
    (h : j ≠ i) : proj (updateChannel raw i s) j = proj s j := by
  have hv : j.val ≠ i.val := fun hc => h (Fin.ext hc)
  have hv' : i.val ≠ j.val := Ne.symm hv
  simp only [updateChannel, proj]
  repeat' split
  all_goals simp_all [testBit_xor_shift_ne _ _ _ hv']

theorem proj_tick_ne (raws : Fin maxPort → Nat) (s : MPRState) (i j : Fin maxPort)
    (h : j ≠ i) : proj (tick raws s i) j = proj s j := by
  unfold tick
  split
  · exact proj_updateChannel_ne _ _ _ _ h
  · rfl

theorem foldl_tick_proj (raws : Fin maxPort → Nat) (i : Fin maxPort) :
    ∀ (l : List (Fin maxPort)), l.Nodup → ∀ s : MPRState,
    proj (l.foldl (tick raws) s) i =
      if i ∈ l ∧ s.activePort.testBit i.val then stepChan (raws i) (proj s i)
      else proj s i := by
  intro l
  induction l with
  | nil => intro _ s; simp
  | cons a l ih =>
    intro hnd s
    rw [List.nodup_cons] at hnd
    rw [List.foldl_cons, ih hnd.2]
    rcases eq_or_ne a i with hai | hai
    · subst hai
      have hnotmem : ¬ (a ∈ l ∧ (tick raws s a).activePort.testBit a.val) :=
        fun hc => hnd.1 hc.1
      rw [if_neg hnotmem]
      unfold tick
      by_cases hact : s.activePort.testBit a.val
      · simp [hact, proj_updateChannel_self]
      · simp [hact]
    · have hproj : proj (tick raws s a) i = proj s i :=
        proj_tick_ne _ _ _ _ (Ne.symm hai)
      have hact : (tick raws s a).activePort = s.activePort := (tick_globals _ _ _).1
      rw [hproj, hact]
      have hmem : (i ∈ a :: l) ↔ (i ∈ l) := by
        simp [List.mem_cons, (Ne.symm hai : i ≠ a)]
      simp only [hmem]

/-- One `update()` call acts on channel `i` as `stepChan` when `i` is
active and leaves it untouched otherwise. -/
theorem update_proj (raws : Fin maxPort → Nat) (s : MPRState) (i : Fin maxPort) :
    proj (update raws s) i =
      if s.activePort.testBit i.val then stepChan (raws i) (proj s i)
      else proj s i := by
  rw [update, foldl_tick_proj raws i (List.finRange maxPort) (List.nodup_finRange _) s]
  simp [List.mem_finRange]

theorem update_globals (raws : Fin maxPort → Nat) (s : MPRState) :
    (update raws s).activePort = s.activePort ∧
    (update raws s).address = s.address ∧
    (update raws s).minValue = s.minValue ∧
    (update raws s).maxValue = s.maxValue ∧
    (update raws s).touchMargin = s.touchMargin ∧
    (update raws s).releaseMargin = s.releaseMargin ∧
    (update raws s).touchJuge = s.touchJuge ∧
    (update raws s).releaseJuge = s.releaseJuge := by
  rw [update]
  generalize List.finRange maxPort = l
  induction l generalizing s with
  | nil => exact ⟨rfl, rfl, rfl, rfl, rfl, rfl, rfl, rfl⟩
  | cons a l ih =>
    rw [List.foldl_cons]
    have h1 := tick_globals raws s a
    have h2 := ih (tick raws s a)
    exact ⟨h2.1.trans h1.1, h2.2.1.trans h1.2.1, h2.2.2.1.trans h1.2.2.1,
      h2.2.2.2.1.trans h1.2.2.2.1, h2.2.2.2.2.1.trans h1.2.2.2.2.1,
      h2.2.2.2.2.2.1.trans h1.2.2.2.2.2.1, h2.2.2.2.2.2.2.1.trans h1.2.2.2.2.2.2.1,
      h2.2.2.2.2.2.2.2.trans h1.2.2.2.2.2.2.2⟩

/-! ### Setter frame lemmas -/

theorem setTouchMargin_globals (s : MPRState) (p m : Nat) :
    (setTouchMargin s p m).activePort = s.activePort ∧
    (setTouchMargin s p m).currentTouched = s.currentTouched ∧
    (setTouchMargin s p m).value = s.value ∧
    (setTouchMargin s p m).counter = s.counter ∧
    (setTouchMargin s p m).minValue = s.minValue ∧
    (setTouchMargin s p m).maxValue = s.maxValue ∧
    (setTouchMargin s p m).releaseMargin = s.releaseMargin ∧
    (setTouchMargin s p m).touchJuge = s.touchJuge ∧
    (setTouchMargin s p m).releaseJuge = s.releaseJuge := by
  refine ⟨?_, ?_, ?_, ?_, ?_, ?_, ?_, ?_, ?_⟩ <;> simp only [setTouchMargin] <;>
    (repeat' split) <;> rfl

theorem setReleaseMargin_globals (s : MPRState) (p m : Nat) :
    (setReleaseMargin s p m).activePort = s.activePort ∧
    (setReleaseMargin s p m).currentTouched = s.currentTouched ∧
    (setReleaseMargin s p m).value = s.value ∧
    (setReleaseMargin s p m).counter = s.counter ∧
    (setReleaseMargin s p m).minValue = s.minValue ∧
    (setReleaseMargin s p m).maxValue = s.maxValue ∧
    (setReleaseMargin s p m).touchMargin = s.touchMargin ∧
    (setReleaseMargin s p m).touchJuge = s.touchJuge ∧
    (setReleaseMargin s p m).releaseJuge = s.releaseJuge := by
  refine ⟨?_, ?_, ?_, ?_, ?_, ?_, ?_, ?_, ?_⟩ <;> simp only [setReleaseMargin] <;>
    (repeat' split) <;> rfl

theorem setSensorMinValue_globals (s : MPRState) (p v : Nat) :
    (setSensorMinValue s p v).activePort = s.activePort ∧
    (setSensorMinValue s p v).currentTouched = s.currentTouched ∧
    (setSensorMinValue s p v).value = s.value ∧
    (setSensorMinValue s p v).counter = s.counter ∧
    (setSensorMinValue s p v).threshold = s.threshold ∧
    (setSensorMinValue s p v).maxValue = s.maxValue ∧
    (setSensorMinValue s p v).touchMargin = s.touchMargin ∧
    (setSensorMinValue s p v).releaseMargin = s.releaseMargin ∧
    (setSensorMinValue s p v).touchJuge = s.touchJuge ∧
    (setSensorMinValue s p v).releaseJuge = s.releaseJuge := by
  refine ⟨?_, ?_, ?_, ?_, ?_, ?_, ?_, ?_, ?_, ?_⟩ <;> simp only [setSensorMinValue] <;>
    (repeat' split) <;> rfl

theorem setSensorMaxValue_globals (s : MPRState) (p v : Nat) :
    (setSensorMaxValue s p v).activePort = s.activePort ∧
    (setSensorMaxValue s p v).currentTouched = s.currentTouched ∧
    (setSensorMaxValue s p v).value = s.value ∧
    (setSensorMaxValue s p v).counter = s.counter ∧
    (setSensorMaxValue s p v).threshold = s.threshold ∧
    (setSensorMaxValue s p v).minValue = s.minValue ∧
    (setSensorMaxValue s p v).touchMargin = s.touchMargin ∧
    (setSensorMaxValue s p v).releaseMargin = s.releaseMargin ∧
    (setSensorMaxValue s p v).touchJuge = s.touchJuge ∧
    (setSensorMaxValue s p v).releaseJuge = s.releaseJuge := by
  refine ⟨?_, ?_, ?_, ?_, ?_, ?_, ?_, ?_, ?_, ?_⟩ <;> simp only [setSensorMaxValue] <;>
    (repeat' split) <;> rfl

theorem setTouchJugeCount_globals (s : MPRState) (p c : Nat) :
    (setTouchJugeCount s p c).activePort = s.activePort ∧
    (setTouchJugeCount s p c).currentTouched = s.currentTouched ∧
    (setTouchJugeCount s p c).value = s.value ∧
    (setTouchJugeCount s p c).counter = s.counter ∧
    (setTouchJugeCount s p c).threshold = s.threshold ∧
    (setTouchJugeCount s p c).minValue = s.minValue ∧
    (setTouchJugeCount s p c).maxValue = s.maxValue ∧
    (setTouchJugeCount s p c).touchMargin = s.touchMargin ∧
    (setTouchJugeCount s p c).releaseMargin = s.releaseMargin ∧
    (setTouchJugeCount s p c).releaseJuge = s.releaseJuge := by
  refine ⟨?_, ?_, ?_, ?_, ?_, ?_, ?_, ?_, ?_, ?_⟩ <;> simp only [setTouchJugeCount] <;>
    (repeat' split) <;> rfl

theorem setReleaseJugeCount_globals (s : MPRState) (p c : Nat) :
    (setReleaseJugeCount s p c).activePort = s.activePort ∧
    (setReleaseJugeCount s p c).currentTouched = s.currentTouched ∧
    (setReleaseJugeCount s p c).value = s.value ∧
    (setReleaseJugeCount s p c).counter = s.counter ∧
    (setReleaseJugeCount s p c).threshold = s.threshold ∧
    (setReleaseJugeCount s p c).minValue = s.minValue ∧
    (setReleaseJugeCount s p c).maxValue = s.maxValue ∧
    (setReleaseJugeCount s p c).touchMargin = s.touchMargin ∧
    (setReleaseJugeCount s p c).releaseMargin = s.releaseMargin ∧
    (setReleaseJugeCount s p c).touchJuge = s.touchJuge := by
  refine ⟨?_, ?_, ?_, ?_, ?_, ?_, ?_, ?_, ?_, ?_⟩ <;> simp only [setReleaseJugeCount] <;>
    (repeat' split) <;> rfl

/-- Every setter leaves a channel other than the addressed port untouched. -/
theorem setters_proj_ne (s : MPRState) (p x : Nat) (i : Fin maxPort)
    (h : i.val ≠ p) :
    proj (setTouchMargin s p x) i = proj s i ∧
    proj (setReleaseMargin s p x) i = proj s i ∧
    proj (setSensorMinValue s p x) i = proj s i ∧
    proj (setSensorMaxValue s p x) i = proj s i ∧
    proj (setTouchJugeCount s p x) i = proj s i ∧
    proj (setReleaseJugeCount s p x) i = proj s i := by
  refine ⟨?_, ?_, ?_, ?_, ?_, ?_⟩ <;>
    simp only [setTouchMargin, setReleaseMargin, setSensorMinValue,
      setSensorMaxValue, setTouchJugeCount, setReleaseJugeCount, proj] <;>
    (repeat' split) <;> simp_all

/-! ### The public operations and reachability -/

/-- One call of the public mutating API. -/
inductive Op where
  | update (raws : Fin maxPort → Nat)
  | touchMargin (port margin : Nat)
  | releaseMargin (port margin : Nat)
  | sensorMinValue (port v : Nat)
  | sensorMaxValue (port v : Nat)
  | touchJugeCount (port count : Nat)
  | releaseJugeCount (port count : Nat)

def applyOp (s : MPRState) : Op → MPRState
  | .update raws => update raws s
  | .touchMargin p m => setTouchMargin s p m
  | .releaseMargin p m => setReleaseMargin s p m
  | .sensorMinValue p v => setSensorMinValue s p v
  | .sensorMaxValue p v => setSensorMaxValue s p v
  | .touchJugeCount p c => setTouchJugeCount s p c
  | .releaseJugeCount p c => setReleaseJugeCount s p c

/-- Any sequence of public operations after construction. -/
def runOps (s : MPRState) (ops : List Op) : MPRState :=
  ops.foldl applyOp s

theorem applyOp_activePort (s : MPRState) (o : Op) :
    (applyOp s o).activePort = s.activePort := by
  cases o with
  | update raws => exact (update_globals _ _).1
  | touchMargin p m => exact (setTouchMargin_globals _ _ _).1
  | releaseMargin p m => exact (setReleaseMargin_globals _ _ _).1
  | sensorMinValue p v => exact (setSensorMinValue_globals _ _ _).1
  | sensorMaxValue p v => exact (setSensorMaxValue_globals _ _ _).1
  | touchJugeCount p c => exact (setTouchJugeCount_globals _ _ _).1
  | releaseJugeCount p c => exact (setReleaseJugeCount_globals _ _ _).1

/-- No public operation touches the state of a channel outside the active
bitmask. -/
theorem applyOp_proj_inactive (s : MPRState) (o : Op) (i : Fin maxPort)
    (h : s.activePort.testBit i.val = false) :
    proj (applyOp s o) i = proj s i := by
  cases o with
  | update raws =>
      have := update_proj raws s i
      rwa [h, if_neg (by simp)] at this
  | touchMargin p m =>
      rcases eq_or_ne i.val p with hp | hp
      · simp only [applyOp, setTouchMargin, ← hp, h]
        rw [if_neg (by simp)]
      · exact (setters_proj_ne s p m i hp).1
  | releaseMargin p m =>
      rcases eq_or_ne i.val p with hp | hp
      · simp only [applyOp, setReleaseMargin, ← hp, h]
        rw [if_neg (by simp)]
      · exact (setters_proj_ne s p m i hp).2.1
  | sensorMinValue p v =>
      rcases eq_or_ne i.val p with hp | hp
      · simp only [applyOp, setSensorMinValue, ← hp, h]
        rw [if_neg (by simp)]
      · exact (setters_proj_ne s p v i hp).2.2.1
  | sensorMaxValue p v =>
      rcases eq_or_ne i.val p with hp | hp
      · simp only [applyOp, setSensorMaxValue, ← hp, h]
        rw [if_neg (by simp)]
      · exact (setters_proj_ne s p v i hp).2.2.2.1
  | touchJugeCount p c =>
      rcases eq_or_ne i.val p with hp | hp
      · simp only [applyOp, setTouchJugeCount, ← hp, h]
        rw [if_neg (by simp)]
      · exact (setters_proj_ne s p c i hp).2.2.2.2.1
  | releaseJugeCount p c =>
      rcases eq_or_ne i.val p with hp | hp
      · simp only [applyOp, setReleaseJugeCount, ← hp, h]
        rw [if_neg (by simp)]
      · exact (setters_proj_ne s p c i hp).2.2.2.2.2

theorem runOps_proj_inactive (ops : List Op) :
    ∀ (s : MPRState) (i : Fin maxPort), s.activePort.testBit i.val = false →
    proj (runOps s ops) i = proj s i := by
  induction ops with
  | nil => intro s i _; rfl
  | cons o ops ih =>
    intro s i h
    have h2 : (applyOp s o).activePort.testBit i.val = false := by
      rw [applyOp_activePort]; exact h
    calc proj (runOps (applyOp s o) ops) i = proj (applyOp s o) i := ih _ _ h2
      _ = proj s i := applyOp_proj_inactive s o i h

/-! ### Runs of `update()` on one active channel -/

theorem isTouched_active (s : MPRState) (i : Fin maxPort)
    (h : s.activePort.testBit i.val = true) :
    isTouched s i.val = (proj s i).touched := by
  unfold isTouched proj
  rw [if_pos ⟨i.isLt, h⟩]

theorem runUpdates_activePort (l : List (Fin maxPort → Nat)) :
    ∀ s : MPRState, (runUpdates s l).activePort = s.activePort := by
  induction l with
  | nil => intro s; rfl
  | cons a l ih =>
    intro s
    calc (runUpdates (update a s) l).activePort = (update a s).activePort := ih _
      _ = s.activePort := (update_globals _ _).1

/-- A run of `update()` calls acts on an active channel exactly as the
single-channel step run on that channel's own raw samples. -/
theorem runUpdates_proj (l : List (Fin maxPort → Nat)) :
    ∀ (s : MPRState) (i : Fin maxPort), s.activePort.testBit i.val = true →
    proj (runUpdates s l) i = chanRun (proj s i) (l.map (fun raws => raws i)) := by
  induction l with
  | nil => intro s i _; rfl
  | cons a l ih =>
    intro s i h
    have h2 : (update a s).activePort.testBit i.val = true := by
      rw [(update_globals _ _).1]; exact h
    have : proj (update a s) i = stepChan (a i) (proj s i) := by
      rw [update_proj, if_pos h]
    calc proj (runUpdates (update a s) l) i
        = chanRun (proj (update a s) i) (l.map (fun raws => raws i)) := ih _ _ h2
      _ = chanRun (stepChan (a i) (proj s i)) (l.map (fun raws => raws i)) := by rw [this]
      _ = chanRun (proj s i) ((a :: l).map (fun raws => raws i)) := rfl

/-! ### The shape of one per-channel cycle -/

/-- The smoothed-and-clamped value computed from the previous value and a
fresh raw sample. -/
def smoothClamp (mn mx : Nat) (v : ℚ) (raw : Nat) : ℚ :=
  constrain (alpha * raw + (1 - alpha) * v) (mn : ℚ) (mx : ℚ)

/-- Equation for `stepChan` in fully sequenced form: smoothed value, state-directed
condition, counter increment-or-reset, flip test against the confirm count
of the current state, and threshold re-arming on a flip. -/
theorem stepChan_spec (raw : Nat) (c : Chan) :
    stepChan raw c =
      (let v := smoothClamp c.minValue c.maxValue c.value raw
       let conditionMet : Bool :=
         if c.touched then decide (c.threshold < v) else decide (v < c.threshold)
       let k := if conditionMet then (c.counter + 1) % 256 else 0
       let flip : Bool :=
         if c.touched then decide (c.releaseJuge < k) else decide (c.touchJuge < k)
       if flip then
         { c with value := v, counter := 0, touched := !c.touched,
                  threshold :=
                    if c.touched then v - (c.touchMargin : ℚ)
                    else v + (c.releaseMargin : ℚ) }
       else { c with value := v, counter := k }) := by
  simp only [stepChan, smoothClamp]
  cases hc : c.touched <;> simp [hc]

/-- With a touch confirm count of 255 the 8-bit counter can never strictly
exceed it, so a released channel stays released after one cycle. -/
theorem stepChan_touchJuge_max (raw : Nat) (c : Chan) (hj : c.touchJuge = 255)
    (ht : c.touched = false) : (stepChan raw c).touched = false := by
  rw [stepChan_spec]
  have hmod : (c.counter + 1) % 256 < 256 := Nat.mod_lt _ (by omega)
  simp only [ht, hj]
  repeat' split
  all_goals simp_all
  all_goals omega

/-- Symmetrically, a release confirm count of 255 pins a touched channel. -/
theorem stepChan_releaseJuge_max (raw : Nat) (c : Chan) (hj : c.releaseJuge = 255)
    (ht : c.touched = true) : (stepChan raw c).touched = true := by
  rw [stepChan_spec]
  have hmod : (c.counter + 1) % 256 < 256 := Nat.mod_lt _ (by omega)
  simp only [ht, hj]
  repeat' split
  all_goals simp_all
  all_goals omega

/-! ### Sustained-condition bookkeeping for the no-flip property -/

/-- The sequence of smoothed clamped values a raw stream produces, starting
from value `v` (independent of the flip machinery). -/
def refVals (mn mx : Nat) (v : ℚ) : List Nat → List ℚ
  | [] => []
  | r :: rs => smoothClamp mn mx v r :: refVals mn mx (smoothClamp mn mx v r) rs

/-- The flip condition of each cycle relative to a fixed state and
threshold. -/
def condsOf (touched : Bool) (thr : ℚ) (vs : List ℚ) : List Bool :=
  vs.map (fun v => if touched then decide (thr < v) else decide (v < thr))

/-- The predicate `runsBounded J k ts` says that every run of consecutive `true`s in
`ts`, the first one continuing an initial run of length `k`, stays within
`J`: the condition is never sustained for more than `J` consecutive
cycles. -/
def runsBounded (J : Nat) : Nat → List Bool → Bool
  | _, [] => true
  | k, t :: ts =>
    if t then decide (k + 1 ≤ J) && runsBounded J (k + 1) ts
    else runsBounded J 0 ts

/-- If the flip condition is never sustained for more than the confirm
count of the current state, the state never flips and the threshold stays
fixed over the whole run. -/
theorem chanRun_no_flip (raws : List Nat) :
    ∀ c : Chan, (if c.touched then c.releaseJuge else c.touchJuge) < 256 →
    runsBounded (if c.touched then c.releaseJuge else c.touchJuge) c.counter
      (condsOf c.touched c.threshold (refVals c.minValue c.maxValue c.value raws)) = true →
    (chanRun c raws).touched = c.touched ∧ (chanRun c raws).threshold = c.threshold := by
  induction raws with
  | nil => intro c _ _; exact ⟨rfl, rfl⟩
  | cons r rs ih =>
    intro c hJ hrb
    have hv : refVals c.minValue c.maxValue c.value (r :: rs) =
        smoothClamp c.minValue c.maxValue c.value r ::
          refVals c.minValue c.maxValue (smoothClamp c.minValue c.maxValue c.value r) rs := rfl
    rw [hv] at hrb
    simp only [condsOf, List.map_cons] at hrb
    set v := smoothClamp c.minValue c.maxValue c.value r with hvdef
    set cond : Bool :=
      (if c.touched then decide (c.threshold < v) else decide (v < c.threshold)) with hconddef
    rw [runsBounded] at hrb
    by_cases hc : cond = true
    · -- the condition holds: counter increments, bounded by the confirm count
      rw [if_pos hc] at hrb
      have h1 : c.counter + 1 ≤ (if c.touched then c.releaseJuge else c.touchJuge) := by
        have := (Bool.and_eq_true _ _).mp hrb
        exact of_decide_eq_true this.1
      have h2 := ((Bool.and_eq_true _ _).mp hrb).2
      have hmod : (c.counter + 1) % 256 = c.counter + 1 := Nat.mod_eq_of_lt (by omega)
      have hstep : stepChan r c = { c with value := v, counter := c.counter + 1 } := by
        rw [stepChan_spec]
        simp only [← hvdef, ← hconddef, hc, if_true, hmod]
        have hflip : (if c.touched then decide (c.releaseJuge < c.counter + 1)
            else decide (c.touchJuge < c.counter + 1)) = false := by
          cases hct : c.touched <;> simp [hct] at h1 ⊢ <;> omega
        rw [hflip]
        simp
      have hrun : chanRun c (r :: rs) = chanRun (stepChan r c) rs := rfl
      rw [hrun, hstep]
      exact ih { c with value := v, counter := c.counter + 1 } hJ h2
    · -- the condition fails: counter resets, nothing else happens
      rw [if_neg hc] at hrb
      have hstep : stepChan r c = { c with value := v, counter := 0 } := by
        rw [stepChan_spec]
        simp only [← hvdef, ← hconddef]
        rw [if_neg hc]
        have hflip : (if c.touched then decide (c.releaseJuge < 0)
            else decide (c.touchJuge < 0)) = false := by
          cases hct : c.touched <;> simp [hct]
        simp only [hflip]
        simp
      have hrun : chanRun c (r :: rs) = chanRun (stepChan r c) rs := rfl
      rw [hrun, hstep]
      exact ih { c with value := v, counter := 0 } hJ hrb

/-! ### Constant-raw feeds on a default-parameter channel -/

theorem chanRun_append (c : Chan) (l1 l2 : List Nat) :
    chanRun c (l1 ++ l2) = chanRun (chanRun c l1) l2 := by
  unfold chanRun; rw [List.foldl_append]

/-! ### One-step evaluation lemmas for `stepChan` -/

/-- A released channel whose condition holds and whose counter stays within
the touch confirm count: the counter increments, nothing else changes. -/
theorem stepChan_released_inc (r : Nat) (c : Chan) (ht : c.touched = false)
    (hcond : smoothClamp c.minValue c.maxValue c.value r < c.threshold)
    (hcnt : c.counter + 1 ≤ c.touchJuge) (hlt : c.counter + 1 < 256) :
    stepChan r c =
      { c with value := smoothClamp c.minValue c.maxValue c.value r,
               counter := c.counter + 1 } := by
  rw [stepChan_spec]
  simp only [ht]
  simp [decide_eq_true hcond, Nat.mod_eq_of_lt hlt,
    decide_eq_false (show ¬ (c.touchJuge < c.counter + 1) from by omega)]

/-- A released channel whose condition holds and whose incremented counter
strictly exceeds the touch confirm count: flip to touched, reset the
counter, re-arm the threshold at `value + releaseMargin`. -/
theorem stepChan_released_flip (r : Nat) (c : Chan) (ht : c.touched = false)
    (hcond : smoothClamp c.minValue c.maxValue c.value r < c.threshold)
    (hflip : c.touchJuge < (c.counter + 1) % 256) :
    stepChan r c =
      { c with value := smoothClamp c.minValue c.maxValue c.value r,
               counter := 0, touched := true,
               threshold := smoothClamp c.minValue c.maxValue c.value r +
                 (c.releaseMargin : ℚ) } := by
  rw [stepChan_spec]
  simp only [ht]
  simp [decide_eq_true hcond, decide_eq_true hflip]

/-- A released channel whose condition fails: the counter resets to 0. -/
theorem stepChan_released_stay (r : Nat) (c : Chan) (ht : c.touched = false)
    (hcond : ¬ (smoothClamp c.minValue c.maxValue c.value r < c.threshold)) :
    stepChan r c =
      { c with value := smoothClamp c.minValue c.maxValue c.value r,
               counter := 0 } := by
  rw [stepChan_spec]
  simp only [ht]
  simp [decide_eq_false hcond]

/-- A touched channel whose condition fails: the counter resets to 0. -/
theorem stepChan_touched_stay (r : Nat) (c : Chan) (ht : c.touched = true)
    (hcond : ¬ (c.threshold < smoothClamp c.minValue c.maxValue c.value r)) :
    stepChan r c =
      { c with value := smoothClamp c.minValue c.maxValue c.value r,
               counter := 0 } := by
  rw [stepChan_spec]
  simp only [ht]
  simp [decide_eq_false hcond]

/-- The smoothed-value sequence of a constant raw stream `r` under the
default bounds `[600, 710]`, starting from seed value `v0`. -/
def vseq (v0 : ℚ) (r : Nat) : Nat → ℚ
  | 0 => v0
  | n + 1 => smoothClamp 600 710 (vseq v0 r n) r

/-- Basic bounds of the smoothed-value sequence: it stays in
`[max 600 r, v0]` (for `r ≤ v0 ≤ 710`). -/
theorem vseq_inv (v0 : ℚ) (r : Nat) (h600 : 600 ≤ v0) (h710 : v0 ≤ 710)
    (hr : (r : ℚ) ≤ v0) (n : Nat) :
    600 ≤ vseq v0 r n ∧ vseq v0 r n ≤ 710 ∧ (r : ℚ) ≤ vseq v0 r n ∧
      vseq v0 r n ≤ v0 := by
  induction n with
  | zero => exact ⟨h600, h710, hr, le_refl v0⟩
  | succ n ih =>
    obtain ⟨i1, i2, i3, i4⟩ := ih
    have hx1 : (r : ℚ) ≤ alpha * r + (1 - alpha) * vseq v0 r n := by
      unfold alpha; linarith
    have hx2 : alpha * r + (1 - alpha) * vseq v0 r n ≤ vseq v0 r n := by
      unfold alpha; linarith
    have hx3 : alpha * r + (1 - alpha) * vseq v0 r n ≤ 710 := le_trans hx2 i2
    have hmax : vseq v0 r (n + 1) = max 600 (alpha * r + (1 - alpha) * vseq v0 r n) := by
      show smoothClamp 600 710 (vseq v0 r n) r = _
      unfold smoothClamp
      rw [constrain_eq_max _ (by push_cast; exact hx3)]
      norm_num
    rw [hmax]
    refine ⟨le_max_left _ _, max_le (by norm_num) hx3,
      le_trans hx1 (le_max_right _ _), max_le h600 (le_trans hx2 i4)⟩

theorem vseq_succ_le (v0 : ℚ) (r : Nat) (h600 : 600 ≤ v0) (h710 : v0 ≤ 710)
    (hr : (r : ℚ) ≤ v0) (n : Nat) : vseq v0 r (n + 1) ≤ vseq v0 r n := by
  obtain ⟨i1, i2, i3, i4⟩ := vseq_inv v0 r h600 h710 hr n
  have hx2 : alpha * r + (1 - alpha) * vseq v0 r n ≤ vseq v0 r n := by
    unfold alpha; linarith
  have hx3 : alpha * r + (1 - alpha) * vseq v0 r n ≤ 710 := le_trans hx2 i2
  have hmax : vseq v0 r (n + 1) = max 600 (alpha * r + (1 - alpha) * vseq v0 r n) := by
    show smoothClamp 600 710 (vseq v0 r n) r = _
    unfold smoothClamp
    rw [constrain_eq_max _ (by push_cast; exact hx3)]
    norm_num
  rw [hmax]
  exact max_le i1 hx2

theorem vseq_le_of_le (v0 : ℚ) (r : Nat) (h600 : 600 ≤ v0) (h710 : v0 ≤ 710)
    (hr : (r : ℚ) ≤ v0) {a b : Nat} (hab : a ≤ b) :
    vseq v0 r b ≤ vseq v0 r a := by
  induction b, hab using Nat.le_induction with
  | base => exact le_refl _
  | succ b hab ih => exact le_trans (vseq_succ_le v0 r h600 h710 hr b) ih

/-- Once the initial value clears `630` and the raw stream sits below
`v0 - 50`, every smoothed value after the seed lies strictly below the
initial threshold `v0 - 30`. -/
theorem vseq_succ_lt_thr (v0 : ℚ) (r : Nat) (h710 : v0 ≤ 710) (h630 : 630 < v0)
    (hr50 : (r : ℚ) < v0 - 50) (n : Nat) : vseq v0 r (n + 1) < v0 - 30 := by
  have h600 : (600 : ℚ) ≤ v0 := by linarith
  have hr : (r : ℚ) ≤ v0 := by linarith
  obtain ⟨i1, i2, i3, i4⟩ := vseq_inv v0 r h600 h710 hr n
  have hx2 : alpha * r + (1 - alpha) * vseq v0 r n ≤ vseq v0 r n := by
    unfold alpha; linarith
  have hx3 : alpha * r + (1 - alpha) * vseq v0 r n ≤ 710 := le_trans hx2 i2
  have hmax : vseq v0 r (n + 1) = max 600 (alpha * r + (1 - alpha) * vseq v0 r n) := by
    show smoothClamp 600 710 (vseq v0 r n) r = _
    unfold smoothClamp
    rw [constrain_eq_max _ (by push_cast; exact hx3)]
    norm_num
  rw [hmax]
  have hxlt : alpha * r + (1 - alpha) * vseq v0 r n < v0 - 30 := by
    unfold alpha at *; linarith
  exact max_lt (by linarith) hxlt

/-- A channel as the constructor initialises it, with seed value `v0`. -/
def defChan (v0 : ℚ) : Chan :=
  { value := v0, minValue := 600, maxValue := 710, touched := false,
    counter := 0, threshold := v0 - 30, touchMargin := 30, releaseMargin := 20,
    touchJuge := 15, releaseJuge := 15 }

/-- Phase 1 of a qualifying constant feed: for the first 15 cycles the
condition holds every cycle, the counter climbs and no flip happens. -/
theorem chanRun_const_phase1 (v0 : ℚ) (r : Nat) (h710 : v0 ≤ 710)
    (h630 : 630 < v0) (hr50 : (r : ℚ) < v0 - 50) :
    ∀ n, n ≤ 15 →
    chanRun (defChan v0) (List.replicate n r) =
      { value := vseq v0 r n, minValue := 600, maxValue := 710, touched := false,
        counter := n, threshold := v0 - 30, touchMargin := 30, releaseMargin := 20,
        touchJuge := 15, releaseJuge := 15 } := by
  intro n
  induction n with
  | zero => intro _; rfl
  | succ n ih =>
    intro hn
    rw [List.replicate_succ', chanRun_append, ih (by omega)]
    show stepChan r _ = _
    rw [stepChan_released_inc r _ rfl
      (by exact vseq_succ_lt_thr v0 r h710 h630 hr50 n)
      (by exact hn)
      (by exact lt_of_le_of_lt hn (by norm_num))]
    rfl

/-- Cycle 16 of a qualifying constant feed: the counter reaches 16 > 15 and
the channel flips to touched, re-arming the threshold at `value + 20`. -/
theorem chanRun_const_16 (v0 : ℚ) (r : Nat) (h710 : v0 ≤ 710)
    (h630 : 630 < v0) (hr50 : (r : ℚ) < v0 - 50) :
    chanRun (defChan v0) (List.replicate 16 r) =
      { value := vseq v0 r 16, minValue := 600, maxValue := 710, touched := true,
        counter := 0, threshold := vseq v0 r 16 + 20, touchMargin := 30,
        releaseMargin := 20, touchJuge := 15, releaseJuge := 15 } := by
  have h15 := chanRun_const_phase1 v0 r h710 h630 hr50 15 (le_refl 15)
  rw [show (16 : Nat) = 15 + 1 from rfl, List.replicate_succ', chanRun_append, h15]
  show stepChan r _ = _
  rw [stepChan_released_flip r _ rfl
    (by exact vseq_succ_lt_thr v0 r h710 h630 hr50 15)
    (by exact (show (15 : Nat) < (15 + 1) % 256 by norm_num))]
  norm_num
  rw [show (16 : Nat) = 15 + 1 from rfl]
  rfl

/-- Phase 2: after the flip the value keeps falling, the release condition
never holds, and the channel stays touched with the counter at 0. -/
theorem chanRun_const_phase2 (v0 : ℚ) (r : Nat) (h710 : v0 ≤ 710)
    (h630 : 630 < v0) (hr50 : (r : ℚ) < v0 - 50) :
    ∀ n, 16 ≤ n →
    chanRun (defChan v0) (List.replicate n r) =
      { value := vseq v0 r n, minValue := 600, maxValue := 710, touched := true,
        counter := 0, threshold := vseq v0 r 16 + 20, touchMargin := 30,
        releaseMargin := 20, touchJuge := 15, releaseJuge := 15 } := by
  intro n hn
  induction n, hn using Nat.le_induction with
  | base => exact chanRun_const_16 v0 r h710 h630 hr50
  | succ n hn ih =>
    rw [List.replicate_succ', chanRun_append, ih]
    show stepChan r _ = _
    have h600 : (600 : ℚ) ≤ v0 := by linarith
    have hr : (r : ℚ) ≤ v0 := by linarith
    have hle : vseq v0 r (n + 1) ≤ vseq v0 r 16 :=
      vseq_le_of_le v0 r h600 h710 hr (by omega)
    have hcond : ¬ (vseq v0 r 16 + 20 < vseq v0 r (n + 1)) := by linarith
    rw [stepChan_touched_stay r _ rfl (by exact hcond)]
    rfl

/-- A qualifying constant feed leaves the channel released for the first 15
cycles and touched from cycle 16 on: exactly one transition, at cycle 16. -/
theorem chanRun_const_touched (v0 : ℚ) (r : Nat) (h710 : v0 ≤ 710)
    (h630 : 630 < v0) (hr50 : (r : ℚ) < v0 - 50) (n : Nat) :
    (chanRun (defChan v0) (List.replicate n r)).touched = decide (16 ≤ n) := by
  rcases le_or_lt 16 n with h | h
  · rw [chanRun_const_phase2 v0 r h710 h630 hr50 n h]
    simp [h]
  · rw [chanRun_const_phase1 v0 r h710 h630 hr50 n (by omega)]
    simp; omega

/-! ### Further support lemmas -/

/-- What the constructor stores for an active channel. -/
theorem construct_proj (setAddress usedPortMask : Nat) (seed : Fin maxPort → Nat)
    (g : MPRState) (i : Fin maxPort)
    (h : (usedPortMask % 65536).testBit i.val = true) :
    proj (construct setAddress usedPortMask seed g) i =
      { value := constrain (seed i) 600 710, minValue := 600, maxValue := 710,
        touched := false, counter := 0,
        threshold := constrain (seed i) 600 710 - 30, touchMargin := 30,
        releaseMargin := 20, touchJuge := 15, releaseJuge := 15 } := by
  simp [construct, proj, h, Nat.zero_testBit]

theorem stepChan_value (raw : Nat) (c : Chan) :
    (stepChan raw c).value = smoothClamp c.minValue c.maxValue c.value raw := by
  simp only [stepChan, smoothClamp]
  (repeat' split) <;> rfl

theorem update_touched_touchJuge_max (raws : Fin maxPort → Nat) (s : MPRState)
    (i : Fin maxPort) (hj : s.touchJuge i = 255)
    (ht : s.currentTouched.testBit i.val = false) :
    (update raws s).currentTouched.testBit i.val = false := by
  have heq : (update raws s).currentTouched.testBit i.val =
      (proj (update raws s) i).touched := rfl
  rw [heq, update_proj]
  by_cases hact : s.activePort.testBit i.val = true
  · rw [if_pos hact]
    exact stepChan_touchJuge_max _ _ hj ht
  · rw [if_neg hact]
    exact ht

theorem update_touched_releaseJuge_max (raws : Fin maxPort → Nat) (s : MPRState)
    (i : Fin maxPort) (hj : s.releaseJuge i = 255)
    (ht : s.currentTouched.testBit i.val = true) :
    (update raws s).currentTouched.testBit i.val = true := by
  have heq : (update raws s).currentTouched.testBit i.val =
      (proj (update raws s) i).touched := rfl
  rw [heq, update_proj]
  by_cases hact : s.activePort.testBit i.val = true
  · rw [if_pos hact]
    exact stepChan_releaseJuge_max _ _ hj ht
  · rw [if_neg hact]
    exact ht

theorem runUpdates_touchJuge_max (l : List (Fin maxPort → Nat)) :
    ∀ (s : MPRState) (i : Fin maxPort), s.touchJuge i = 255 →
    s.currentTouched.testBit i.val = false →
    (runUpdates s l).currentTouched.testBit i.val = false := by
  induction l with
  | nil => intro s i _ ht; exact ht
  | cons a l ih =>
    intro s i hj ht
    refine ih (update a s) i ?_ (update_touched_touchJuge_max a s i hj ht)
    rw [(update_globals a s).2.2.2.2.2.2.1]
    exact hj

theorem runUpdates_releaseJuge_max (l : List (Fin maxPort → Nat)) :
    ∀ (s : MPRState) (i : Fin maxPort), s.releaseJuge i = 255 →
    s.currentTouched.testBit i.val = true →
    (runUpdates s l).currentTouched.testBit i.val = true := by
  induction l with
  | nil => intro s i _ ht; exact ht
  | cons a l ih =>
    intro s i hj ht
    refine ih (update a s) i ?_ (update_touched_releaseJuge_max a s i hj ht)
    rw [(update_globals a s).2.2.2.2.2.2.2]
    exact hj

/-! ### Claim theorems -/

/-- C7: Construction with a device address and an active-channel bitmask
initialises every active channel with minValue = 600, maxValue = 710,
touchMargin = 30, releaseMargin = 20, touch and release confirm counts both
15, counter = 0, the smoothed value seeded from one raw sample clamped into
[600, 710], the initial threshold = smoothed value − touchMargin, and the
initial boolean state Released (the touch-state word is 0). -/
theorem claim_C7 (setAddress usedPortMask : Nat) (seed : Fin maxPort → Nat)
    (g : MPRState) (i : Fin maxPort)
    (hact : (construct setAddress usedPortMask seed g).activePort.testBit i.val = true) :
    proj (construct setAddress usedPortMask seed g) i =
      { value := constrain (seed i) 600 710, minValue := 600, maxValue := 710,
        touched := false, counter := 0,
        threshold := constrain (seed i) 600 710 - 30, touchMargin := 30,
        releaseMargin := 20, touchJuge := 15, releaseJuge := 15 } ∧
    (construct setAddress usedPortMask seed g).currentTouched = 0 :=
  ⟨construct_proj setAddress usedPortMask seed g i hact, rfl⟩

theorem claim_C7_witness :
    proj (construct 0x5A 3 (fun _ => 650) blank) 0 =
      { value := constrain ((650 : Nat) : ℚ) 600 710, minValue := 600,
        maxValue := 710, touched := false, counter := 0,
        threshold := constrain ((650 : Nat) : ℚ) 600 710 - 30, touchMargin := 30,
        releaseMargin := 20, touchJuge := 15, releaseJuge := 15 } ∧
    (construct 0x5A 3 (fun _ => 650) blank).currentTouched = 0 :=
  claim_C7 0x5A 3 (fun _ => 650) blank 0 (by decide)

/-- C6: for a channel argument that is out of range (≥ 12) or not in the
active bitmask, `isTouched` returns false and each of the six setters
leaves the engine state unchanged; all operations are total, so no error is
raised. -/
theorem claim_C6 (s : MPRState) (port x : Nat)
    (h : ¬ (port < maxPort ∧ s.activePort.testBit port)) :
    isTouched s port = false ∧
    setTouchMargin s port x = s ∧
    setReleaseMargin s port x = s ∧
    setSensorMinValue s port x = s ∧
    setSensorMaxValue s port x = s ∧
    setTouchJugeCount s port x = s ∧
    setReleaseJugeCount s port x = s := by
  refine ⟨?_, ?_, ?_, ?_, ?_, ?_, ?_⟩ <;>
    simp only [isTouched, setTouchMargin, setReleaseMargin, setSensorMinValue,
      setSensorMaxValue, setTouchJugeCount, setReleaseJugeCount] <;>
    rw [if_neg h]

theorem claim_C6_witness :
    isTouched (construct 0x5A 3 (fun _ => 650) blank) 12 = false ∧
    setTouchMargin (construct 0x5A 3 (fun _ => 650) blank) 12 77 =
      construct 0x5A 3 (fun _ => 650) blank ∧
    setReleaseMargin (construct 0x5A 3 (fun _ => 650) blank) 12 77 =
      construct 0x5A 3 (fun _ => 650) blank ∧
    setSensorMinValue (construct 0x5A 3 (fun _ => 650) blank) 12 77 =
      construct 0x5A 3 (fun _ => 650) blank ∧
    setSensorMaxValue (construct 0x5A 3 (fun _ => 650) blank) 12 77 =
      construct 0x5A 3 (fun _ => 650) blank ∧
    setTouchJugeCount (construct 0x5A 3 (fun _ => 650) blank) 12 77 =
      construct 0x5A 3 (fun _ => 650) blank ∧
    setReleaseJugeCount (construct 0x5A 3 (fun _ => 650) blank) 12 77 =
      construct 0x5A 3 (fun _ => 650) blank :=
  claim_C6 (construct 0x5A 3 (fun _ => 650) blank) 12 77 (by decide)

/-- C2: for every active channel, `update()` computes the new smoothed
value as 0.6·raw + (1 − 0.6)·previous, clamps it into
[minValue, maxValue], and hence, when minValue ≤ maxValue, the smoothed
value after the update lies within the bounds. -/
theorem claim_C2 (s : MPRState) (raws : Fin maxPort → Nat) (i : Fin maxPort)
    (hact : s.activePort.testBit i.val = true)
    (hmm : s.minValue i ≤ s.maxValue i) :
    (update raws s).value i =
      constrain ((0.6 : ℚ) * (raws i) + (1 - 0.6) * s.value i)
        (s.minValue i) (s.maxValue i) ∧
    (s.minValue i : ℚ) ≤ (update raws s).value i ∧
    (update raws s).value i ≤ (s.maxValue i : ℚ) := by
  have hv : (update raws s).value i = (proj (update raws s) i).value := rfl
  have hstep : proj (update raws s) i = stepChan (raws i) (proj s i) := by
    rw [update_proj, if_pos hact]
  have halpha : (0.6 : ℚ) = alpha := by norm_num [alpha]
  have hval : (update raws s).value i =
      constrain (alpha * (raws i) + (1 - alpha) * s.value i)
        (s.minValue i) (s.maxValue i) := by
    rw [hv, hstep, stepChan_value]
    rfl
  refine ⟨?_, ?_⟩
  · rw [hval, halpha]
  · rw [hval]
    exact constrain_le_of_le _ (by exact_mod_cast hmm)

theorem claim_C2_witness :
    (update (fun _ => 700) (construct 0x5A 1 (fun _ => 650) blank)).value 0 =
      constrain ((0.6 : ℚ) * ((700 : Nat) : ℚ) + (1 - 0.6) *
          (construct 0x5A 1 (fun _ => 650) blank).value 0)
        ((construct 0x5A 1 (fun _ => 650) blank).minValue 0)
        ((construct 0x5A 1 (fun _ => 650) blank).maxValue 0) ∧
    ((construct 0x5A 1 (fun _ => 650) blank).minValue 0 : ℚ) ≤
      (update (fun _ => 700) (construct 0x5A 1 (fun _ => 650) blank)).value 0 ∧
    (update (fun _ => 700) (construct 0x5A 1 (fun _ => 650) blank)).value 0 ≤
      ((construct 0x5A 1 (fun _ => 650) blank).maxValue 0 : ℚ) :=
  claim_C2 (construct 0x5A 1 (fun _ => 650) blank) (fun _ => 700) 0
    (by decide) (by decide)

/-- C5: on an in-range active channel, `setTouchMargin` /
`setReleaseMargin` store the new margin and immediately recompute the
threshold from the channel's current state with the post-flip rule
(touched: value + releaseMargin; released: value − touchMargin), the new
margin taking effect at once. -/
theorem claim_C5 (s : MPRState) (i : Fin maxPort) (margin : Nat)
    (hact : s.activePort.testBit i.val = true) (hm : margin < 256) :
    (setTouchMargin s i.val margin).touchMargin i = margin ∧
    (setTouchMargin s i.val margin).threshold i =
      (if s.currentTouched.testBit i.val then s.value i + (s.releaseMargin i : ℚ)
       else s.value i - (margin : ℚ)) ∧
    (setReleaseMargin s i.val margin).releaseMargin i = margin ∧
    (setReleaseMargin s i.val margin).threshold i =
      (if s.currentTouched.testBit i.val then s.value i + (margin : ℚ)
       else s.value i - (s.touchMargin i : ℚ)) := by
  have hcond : i.val < maxPort ∧ s.activePort.testBit i.val = true := ⟨i.isLt, hact⟩
  have hmod : margin % 256 = margin := Nat.mod_eq_of_lt hm
  refine ⟨?_, ?_, ?_, ?_⟩ <;>
    simp only [setTouchMargin, setReleaseMargin] <;>
    rw [if_pos hcond] <;>
    simp [hmod]

theorem claim_C5_witness :
    (setTouchMargin (construct 0x5A 1 (fun _ => 650) blank) 0 40).touchMargin 0 = 40 ∧
    (setTouchMargin (construct 0x5A 1 (fun _ => 650) blank) 0 40).threshold 0 =
      (if (construct 0x5A 1 (fun _ => 650) blank).currentTouched.testBit 0 then
        (construct 0x5A 1 (fun _ => 650) blank).value 0 +
          ((construct 0x5A 1 (fun _ => 650) blank).releaseMargin 0 : ℚ)
       else (construct 0x5A 1 (fun _ => 650) blank).value 0 - ((40 : Nat) : ℚ)) ∧
    (setReleaseMargin (construct 0x5A 1 (fun _ => 650) blank) 0 40).releaseMargin 0 = 40 ∧
    (setReleaseMargin (construct 0x5A 1 (fun _ => 650) blank) 0 40).threshold 0 =
      (if (construct 0x5A 1 (fun _ => 650) blank).currentTouched.testBit 0 then
        (construct 0x5A 1 (fun _ => 650) blank).value 0 + ((40 : Nat) : ℚ)
       else (construct 0x5A 1 (fun _ => 650) blank).value 0 -
          ((construct 0x5A 1 (fun _ => 650) blank).touchMargin 0 : ℚ)) :=
  claim_C5 (construct 0x5A 1 (fun _ => 650) blank) 0 40 (by decide) (by decide)

/-- C8: channels outside the active bitmask are never written after
construction: any sequence of public operations leaves every per-channel
field (smoothed value, bounds, margins, confirm counts, counter, threshold)
of an inactive channel unchanged, and the touch-state bit of an inactive
channel stays 0 in every reachable state. -/
theorem claim_C8 (setAddress usedPortMask : Nat) (seed : Fin maxPort → Nat)
    (g : MPRState) (ops : List Op) (i : Fin maxPort)
    (hin : (construct setAddress usedPortMask seed g).activePort.testBit i.val = false) :
    proj (runOps (construct setAddress usedPortMask seed g) ops) i =
      proj (construct setAddress usedPortMask seed g) i ∧
    (runOps (construct setAddress usedPortMask seed g) ops).currentTouched.testBit i.val
      = false := by
  constructor
  · exact runOps_proj_inactive ops _ i hin
  · have heq : (runOps (construct setAddress usedPortMask seed g) ops).currentTouched.testBit i.val
        = (proj (runOps (construct setAddress usedPortMask seed g) ops) i).touched := rfl
    rw [heq, runOps_proj_inactive ops _ i hin]
    exact Nat.zero_testBit i.val

theorem claim_C8_witness :
    proj (runOps (construct 0x5A 3 (fun _ => 650) blank)
        [Op.update (fun _ => 640), Op.touchMargin 0 40]) 5 =
      proj (construct 0x5A 3 (fun _ => 650) blank) 5 ∧
    (runOps (construct 0x5A 3 (fun _ => 650) blank)
        [Op.update (fun _ => 640), Op.touchMargin 0 40]).currentTouched.testBit 5
      = false :=
  claim_C8 0x5A 3 (fun _ => 650) blank
    [Op.update (fun _ => 640), Op.touchMargin 0 40] 5 (by decide)

/-- C9: setting the touch confirm count of an active channel to 255 via
`setTouchJugeCount` prevents any Released → Touched transition across every
subsequent sequence of `update()` calls, because the 8-bit counter is
incremented modulo 256 and can never be strictly greater than 255;
symmetrically a release confirm count of 255 pins a touched channel. -/
theorem claim_C9 (s : MPRState) (i : Fin maxPort) (l : List (Fin maxPort → Nat))
    (hact : s.activePort.testBit i.val = true) :
    (s.currentTouched.testBit i.val = false →
      (runUpdates (setTouchJugeCount s i.val 255) l).currentTouched.testBit i.val
        = false) ∧
    (s.currentTouched.testBit i.val = true →
      (runUpdates (setReleaseJugeCount s i.val 255) l).currentTouched.testBit i.val
        = true) := by
  have hcond : i.val < maxPort ∧ s.activePort.testBit i.val = true := ⟨i.isLt, hact⟩
  constructor
  · intro ht
    refine runUpdates_touchJuge_max l _ i ?_ ?_
    · simp only [setTouchJugeCount]
      rw [if_pos hcond]
      simp
    · rw [(setTouchJugeCount_globals s i.val 255).2.1]
      exact ht
  · intro ht
    refine runUpdates_releaseJuge_max l _ i ?_ ?_
    · simp only [setReleaseJugeCount]
      rw [if_pos hcond]
      simp
    · rw [(setReleaseJugeCount_globals s i.val 255).2.1]
      exact ht

theorem claim_C9_witness :
    ((runUpdates (setTouchJugeCount (construct 0x5A 1 (fun _ => 650) blank) 0 255)
        [fun _ => 640]).currentTouched.testBit 0 = false) ∧
    ((runUpdates (setReleaseJugeCount
        { activePort := 1, address := 0x5A, value := fun _ => 650,
          minValue := fun _ => 600, maxValue := fun _ => 710, currentTouched := 1,
          counter := fun _ => 0, threshold := fun _ => 670,
          touchMargin := fun _ => 30, releaseMargin := fun _ => 20,
          touchJuge := fun _ => 15, releaseJuge := fun _ => 15 } 0 255)
        [fun _ => 640]).currentTouched.testBit 0 = true) :=
  ⟨(claim_C9 (construct 0x5A 1 (fun _ => 650) blank) 0 [fun _ => 640]
      (by decide)).1 (by decide),
   (claim_C9
      { activePort := 1, address := 0x5A, value := fun _ => 650,
        minValue := fun _ => 600, maxValue := fun _ => 710, currentTouched := 1,
        counter := fun _ => 0, threshold := fun _ => 670,
        touchMargin := fun _ => 30, releaseMargin := fun _ => 20,
        touchJuge := fun _ => 15, releaseJuge := fun _ => 15 } 0 [fun _ => 640]
      (by decide)).2 (by decide)⟩

/-- C10: `setSensorMinValue` / `setSensorMaxValue` modify only the
stored bound — the smoothed value, threshold, counter and touch-state word
are untouched, with no re-clamping — so immediately after raising minValue
above the current smoothed value the invariant minValue ≤ value is false,
and the clamping step of the next `update()` restores it (shown on a
concrete run). -/
theorem claim_C10 :
    (∀ (s : MPRState) (p v : Nat),
      (setSensorMinValue s p v).value = s.value ∧
      (setSensorMinValue s p v).threshold = s.threshold ∧
      (setSensorMinValue s p v).counter = s.counter ∧
      (setSensorMinValue s p v).currentTouched = s.currentTouched ∧
      (setSensorMaxValue s p v).value = s.value ∧
      (setSensorMaxValue s p v).threshold = s.threshold ∧
      (setSensorMaxValue s p v).counter = s.counter ∧
      (setSensorMaxValue s p v).currentTouched = s.currentTouched) ∧
    ¬ (((setSensorMinValue (construct 0x5A 1 (fun _ => 650) blank) 0 700).minValue 0 : ℚ)
        ≤ (setSensorMinValue (construct 0x5A 1 (fun _ => 650) blank) 0 700).value 0) ∧
    (((update (fun _ => 650)
          (setSensorMinValue (construct 0x5A 1 (fun _ => 650) blank) 0 700)).minValue 0 : ℚ)
        ≤ (update (fun _ => 650)
          (setSensorMinValue (construct 0x5A 1 (fun _ => 650) blank) 0 700)).value 0 ∧
      (update (fun _ => 650)
          (setSensorMinValue (construct 0x5A 1 (fun _ => 650) blank) 0 700)).value 0
        ≤ ((update (fun _ => 650)
          (setSensorMinValue (construct 0x5A 1 (fun _ => 650) blank) 0 700)).maxValue 0 : ℚ)) := by
  refine ⟨fun s p v =>
    ⟨(setSensorMinValue_globals s p v).2.2.1,
     (setSensorMinValue_globals s p v).2.2.2.2.1,
     (setSensorMinValue_globals s p v).2.2.2.1,
     (setSensorMinValue_globals s p v).2.1,
     (setSensorMaxValue_globals s p v).2.2.1,
     (setSensorMaxValue_globals s p v).2.2.2.2.1,
     (setSensorMaxValue_globals s p v).2.2.2.1,
     (setSensorMaxValue_globals s p v).2.1⟩, by decide, ?_⟩
  have hact1 : (setSensorMinValue (construct 0x5A 1 (fun _ => 650) blank) 0 700
      ).activePort.testBit (0 : Fin maxPort).val = true := by decide
  have hval : (update (fun _ => 650)
        (setSensorMinValue (construct 0x5A 1 (fun _ => 650) blank) 0 700)).value 0 =
      (stepChan 650
        (proj (setSensorMinValue (construct 0x5A 1 (fun _ => 650) blank) 0 700) 0)).value := by
    have h0 : (update (fun _ => 650)
          (setSensorMinValue (construct 0x5A 1 (fun _ => 650) blank) 0 700)).value 0 =
        (proj (update (fun _ => 650)
          (setSensorMinValue (construct 0x5A 1 (fun _ => 650) blank) 0 700)) 0).value := rfl
    rw [h0, update_proj, if_pos hact1]
  have hmin : (update (fun _ => 650)
        (setSensorMinValue (construct 0x5A 1 (fun _ => 650) blank) 0 700)).minValue 0 = 700 := by
    rw [congrFun (update_globals _ _).2.2.1 0]
    decide
  have hmax : (update (fun _ => 650)
        (setSensorMinValue (construct 0x5A 1 (fun _ => 650) blank) 0 700)).maxValue 0 = 710 := by
    rw [congrFun (update_globals _ _).2.2.2.1 0]
    decide
  have hs0 : proj (construct 0x5A 1 (fun _ => 650) blank) 0 =
      { value := constrain ((650 : Nat) : ℚ) 600 710, minValue := 600,
        maxValue := 710, touched := false, counter := 0,
        threshold := constrain ((650 : Nat) : ℚ) 600 710 - 30, touchMargin := 30,
        releaseMargin := 20, touchJuge := 15, releaseJuge := 15 } :=
    construct_proj _ _ _ _ _ (by decide)
  have f1 : (proj (setSensorMinValue (construct 0x5A 1 (fun _ => 650) blank) 0 700)
      0).minValue = 700 := by decide
  have f2 : (proj (setSensorMinValue (construct 0x5A 1 (fun _ => 650) blank) 0 700)
      0).maxValue = 710 := by decide
  have f3 : (proj (setSensorMinValue (construct 0x5A 1 (fun _ => 650) blank) 0 700)
      0).value = 650 := by
    show (setSensorMinValue (construct 0x5A 1 (fun _ => 650) blank) 0 700).value 0 = 650
    rw [congrFun (setSensorMinValue_globals _ _ _).2.2.1 0]
    have hv0 : (construct 0x5A 1 (fun _ => 650) blank).value 0 =
        (proj (construct 0x5A 1 (fun _ => 650) blank) 0).value := rfl
    rw [hv0, hs0]
    norm_num [constrain]
  rw [hval, stepChan_value, f1, f2, f3, hmin, hmax]
  norm_num [smoothClamp, constrain, alpha]

/-- C3: during `update()` on an active channel the flip condition is
value strictly above threshold when touched, strictly below when released;
the counter increments exactly when the condition holds and resets to 0
otherwise; the boolean state flips exactly when the counter strictly
exceeds the confirm count of the current state (touchJuge when released,
releaseJuge when touched); a flip resets the counter and sets the threshold
for the new state (value − touchMargin on becoming released,
value + releaseMargin on becoming touched).  Consequently a raw stream
whose condition is never sustained for more than the confirm count of
consecutive cycles never flips the state (and leaves the threshold
unchanged). -/
theorem claim_C3 (s : MPRState) (i : Fin maxPort) (raws : Fin maxPort → Nat)
    (l : List (Fin maxPort → Nat))
    (hact : s.activePort.testBit i.val = true)
    (hcnt : (proj s i).counter + 1 < 256)
    (hJ : (if (proj s i).touched then (proj s i).releaseJuge
      else (proj s i).touchJuge) < 256)
    (hrb : runsBounded
        (if (proj s i).touched then (proj s i).releaseJuge else (proj s i).touchJuge)
        (proj s i).counter
        (condsOf (proj s i).touched (proj s i).threshold
          (refVals (proj s i).minValue (proj s i).maxValue (proj s i).value
            (l.map (fun rs => rs i)))) = true) :
    (proj (update raws s) i =
      (let v := smoothClamp (proj s i).minValue (proj s i).maxValue
         (proj s i).value (raws i)
       let conditionMet : Bool :=
         if (proj s i).touched then decide ((proj s i).threshold < v)
         else decide (v < (proj s i).threshold)
       let k := if conditionMet then (proj s i).counter + 1 else 0
       let flip : Bool :=
         if (proj s i).touched then decide ((proj s i).releaseJuge < k)
         else decide ((proj s i).touchJuge < k)
       if flip then
         { (proj s i) with
           value := v
           counter := 0
           touched := !(proj s i).touched
           threshold :=
             if (proj s i).touched then v - ((proj s i).touchMargin : ℚ)
             else v + ((proj s i).releaseMargin : ℚ) }
       else
         { (proj s i) with
           value := v
           counter := k })) ∧
    isTouched (runUpdates s l) i.val = isTouched s i.val ∧
    (proj (runUpdates s l) i).threshold = (proj s i).threshold := by
  refine ⟨?_, ?_, ?_⟩
  · rw [update_proj, if_pos hact, stepChan_spec]
    simp only [Nat.mod_eq_of_lt hcnt]
  · have hact' : (runUpdates s l).activePort.testBit i.val = true := by
      rw [runUpdates_activePort]; exact hact
    rw [isTouched_active _ _ hact', isTouched_active _ _ hact,
      runUpdates_proj l s i hact]
    exact (chanRun_no_flip (l.map (fun rs => rs i)) (proj s i) hJ hrb).1
  · rw [runUpdates_proj l s i hact]
    exact (chanRun_no_flip (l.map (fun rs => rs i)) (proj s i) hJ hrb).2

theorem claim_C3_witness :
    (proj (update (fun _ => 640) (construct 0x5A 1 (fun _ => 650) blank)) 0 =
      (let v := smoothClamp
         (proj (construct 0x5A 1 (fun _ => 650) blank) 0).minValue
         (proj (construct 0x5A 1 (fun _ => 650) blank) 0).maxValue
         (proj (construct 0x5A 1 (fun _ => 650) blank) 0).value 640
       let conditionMet : Bool :=
         if (proj (construct 0x5A 1 (fun _ => 650) blank) 0).touched then
           decide ((proj (construct 0x5A 1 (fun _ => 650) blank) 0).threshold < v)
         else decide (v < (proj (construct 0x5A 1 (fun _ => 650) blank) 0).threshold)
       let k := if conditionMet then
           (proj (construct 0x5A 1 (fun _ => 650) blank) 0).counter + 1 else 0
       let flip : Bool :=
         if (proj (construct 0x5A 1 (fun _ => 650) blank) 0).touched then
           decide ((proj (construct 0x5A 1 (fun _ => 650) blank) 0).releaseJuge < k)
         else decide ((proj (construct 0x5A 1 (fun _ => 650) blank) 0).touchJuge < k)
       if flip then
         { (proj (construct 0x5A 1 (fun _ => 650) blank) 0) with
           value := v
           counter := 0
           touched := !(proj (construct 0x5A 1 (fun _ => 650) blank) 0).touched
           threshold :=
             if (proj (construct 0x5A 1 (fun _ => 650) blank) 0).touched then
               v - ((proj (construct 0x5A 1 (fun _ => 650) blank) 0).touchMargin : ℚ)
             else v + ((proj (construct 0x5A 1 (fun _ => 650) blank) 0).releaseMargin : ℚ) }
       else
         { (proj (construct 0x5A 1 (fun _ => 650) blank) 0) with
           value := v
           counter := k })) ∧
    isTouched (runUpdates (construct 0x5A 1 (fun _ => 650) blank) [fun _ => 640]) (0 : Fin maxPort).val
      = isTouched (construct 0x5A 1 (fun _ => 650) blank) (0 : Fin maxPort).val ∧
    (proj (runUpdates (construct 0x5A 1 (fun _ => 650) blank) [fun _ => 640]) 0).threshold
      = (proj (construct 0x5A 1 (fun _ => 650) blank) 0).threshold :=
  claim_C3 (construct 0x5A 1 (fun _ => 650) blank) 0 (fun _ => 640) [fun _ => 640]
    (by decide) (by decide) (by decide)
    (by
      rw [construct_proj _ _ _ _ _ (by decide)]
      norm_num [runsBounded, condsOf, refVals, smoothClamp, constrain, alpha])

/-- C4, counterexample: a channel constructed with default parameters
and seed 620 (initial smoothed value 620, threshold 590) fed the constant
raw 500 — strictly below initial smoothed value − touchMargin — for 16
(= touchConfirmCount + 1) cycles never becomes touched: the clamping to
minValue = 600 keeps the smoothed value at 600, which is not below the
threshold 590, so the claimed Released → Touched transition never happens. -/
theorem claim_C4_cex :
    ((500 : ℚ) < (proj (construct 0x5A 1 (fun _ => 620) blank) 0).value
        - ((proj (construct 0x5A 1 (fun _ => 620) blank) 0).touchMargin : ℚ)) ∧
    isTouched (runUpdates (construct 0x5A 1 (fun _ => 620) blank)
        (List.replicate 16 (fun _ => 500))) (0 : Fin maxPort).val = false := by
  have h0 : proj (construct 0x5A 1 (fun _ => 620) blank) 0 =
      { value := constrain (((fun _ : Fin maxPort => (620 : Nat)) 0 : Nat) : ℚ) 600 710,
        minValue := 600, maxValue := 710, touched := false, counter := 0,
        threshold :=
          constrain (((fun _ : Fin maxPort => (620 : Nat)) 0 : Nat) : ℚ) 600 710 - 30,
        touchMargin := 30, releaseMargin := 20, touchJuge := 15, releaseJuge := 15 } :=
    construct_proj _ _ _ _ _ (by decide)
  constructor
  · rw [h0]
    norm_num [constrain]
  · have hact : (construct 0x5A 1 (fun _ => 620) blank
        ).activePort.testBit (0 : Fin maxPort).val = true := by decide
    have hact' : (runUpdates (construct 0x5A 1 (fun _ => 620) blank)
        (List.replicate 16 (fun _ => 500))).activePort.testBit (0 : Fin maxPort).val
          = true := by
      rw [runUpdates_activePort]; exact hact
    rw [isTouched_active _ _ hact', runUpdates_proj _ _ _ hact, h0,
      List.map_replicate]
    norm_num [chanRun, stepChan, smoothClamp, constrain, alpha, List.replicate]

/-- C4, amended: for a channel initialised with default parameters
whose initial smoothed value `v0 = constrain(seed, 600, 710)` satisfies
`v0 > 630` (so that the threshold `v0 − 30` lies above `minValue`), feeding
a constant raw stream `r` with `r < v0 − 50` (so that the smoothed value is
already below the threshold after the very first cycle) for `n` update
cycles leaves the channel Released for all `n ≤ 15 = touchConfirmCount` and
Touched for all `n ≥ 16 = touchConfirmCount + 1`: the Released → Touched
transition happens exactly once, at cycle 16, and never earlier. -/
theorem claim_C4 (setAddress usedPortMask : Nat) (seed : Fin maxPort → Nat)
    (g : MPRState) (i : Fin maxPort) (r n : Nat)
    (hact : (construct setAddress usedPortMask seed g).activePort.testBit i.val = true)
    (h630 : (630 : ℚ) < constrain (seed i) 600 710)
    (hr50 : (r : ℚ) < constrain (seed i) 600 710 - 50) :
    isTouched (runUpdates (construct setAddress usedPortMask seed g)
        (List.replicate n (fun _ => r))) i.val = decide (16 ≤ n) := by
  have h710 : constrain ((seed i : ℚ)) 600 710 ≤ 710 :=
    (constrain_le_of_le _ (by norm_num)).2
  have hact' : (runUpdates (construct setAddress usedPortMask seed g)
      (List.replicate n (fun _ => r))).activePort.testBit i.val = true := by
    rw [runUpdates_activePort]; exact hact
  rw [isTouched_active _ _ hact', runUpdates_proj _ _ _ hact,
    construct_proj _ _ _ _ _ hact, List.map_replicate]
  exact chanRun_const_touched _ r h710 h630 hr50 n

theorem claim_C4_witness :
    isTouched (runUpdates (construct 0x5A 1 (fun _ => 710) blank)
        (List.replicate 16 (fun _ => 650))) (0 : Fin maxPort).val = decide (16 ≤ 16) :=
  claim_C4 0x5A 1 (fun _ => 710) blank 0 650 16 (by decide)
    (by norm_num [constrain]) (by norm_num [constrain])

/-- C1, counterexample: in the spec's scenario the seed raw sample is
also 600, so the smoothed value seeds at 600 with threshold 570; since the
smoothed value is clamped to at least minValue = 600 it can never fall
below 570, and after the 16 prescribed update cycles with raw = 600 the
channel is still not touched — `isTouched(0)` never becomes true. -/
theorem claim_C1_cex :
    isTouched (runUpdates (construct 0x5A 3 (fun _ => 600) blank)
        (List.replicate 16 (fun _ => 600))) (0 : Fin maxPort).val = false := by
  have h0 : proj (construct 0x5A 3 (fun _ => 600) blank) 0 =
      { value := constrain (((fun _ : Fin maxPort => (600 : Nat)) 0 : Nat) : ℚ) 600 710,
        minValue := 600, maxValue := 710, touched := false, counter := 0,
        threshold :=
          constrain (((fun _ : Fin maxPort => (600 : Nat)) 0 : Nat) : ℚ) 600 710 - 30,
        touchMargin := 30, releaseMargin := 20, touchJuge := 15, releaseJuge := 15 } :=
    construct_proj _ _ _ _ _ (by decide)
  have hact : (construct 0x5A 3 (fun _ => 600) blank
      ).activePort.testBit (0 : Fin maxPort).val = true := by decide
  have hact' : (runUpdates (construct 0x5A 3 (fun _ => 600) blank)
      (List.replicate 16 (fun _ => 600))).activePort.testBit (0 : Fin maxPort).val
        = true := by
    rw [runUpdates_activePort]; exact hact
  rw [isTouched_active _ _ hact', runUpdates_proj _ _ _ hact, h0,
    List.map_replicate]
  norm_num [chanRun, stepChan, smoothClamp, constrain, alpha, List.replicate]

/-- C1, amended: constructing with mask {0,1} and a seed raw sample of
710 for channel 0 (the idle reading, clamped to the default maximum),
feeding raw = 600 for 16 update cycles makes `isTouched(0)` true; feeding
raw = 710 for 16 subsequent cycles makes `isTouched(0)` false again; and
`isTouched(5)` (an inactive channel) is false throughout — after any
sequence of update cycles whatsoever. -/
theorem claim_C1 :
    isTouched (runUpdates (construct 0x5A 3 (fun _ => 710) blank)
        (List.replicate 16 (fun _ => 600))) (0 : Fin maxPort).val = true ∧
    isTouched (runUpdates (construct 0x5A 3 (fun _ => 710) blank)
        (List.replicate 16 (fun _ => 600) ++ List.replicate 16 (fun _ => 710)))
      (0 : Fin maxPort).val = false ∧
    (∀ l : List (Fin maxPort → Nat),
      isTouched (runUpdates (construct 0x5A 3 (fun _ => 710) blank) l) 5 = false) := by
  have hact : (construct 0x5A 3 (fun _ => 710) blank
      ).activePort.testBit (0 : Fin maxPort).val = true := by decide
  refine ⟨?_, ?_, ?_⟩
  · have hact' : (runUpdates (construct 0x5A 3 (fun _ => 710) blank)
        (List.replicate 16 (fun _ => 600))).activePort.testBit (0 : Fin maxPort).val
          = true := by
      rw [runUpdates_activePort]; exact hact
    rw [isTouched_active _ _ hact', runUpdates_proj _ _ _ hact,
      construct_proj _ _ _ _ _ hact, List.map_replicate]
    exact chanRun_const_touched _ 600 (by norm_num [constrain])
      (by norm_num [constrain]) (by norm_num [constrain]) 16
  · have hact' : (runUpdates (construct 0x5A 3 (fun _ => 710) blank)
        (List.replicate 16 (fun _ => 600) ++ List.replicate 16 (fun _ => 710))
        ).activePort.testBit (0 : Fin maxPort).val = true := by
      rw [runUpdates_activePort]; exact hact
    rw [isTouched_active _ _ hact', runUpdates_proj _ _ _ hact,
      construct_proj _ _ _ _ _ hact, List.map_append, List.map_replicate,
      List.map_replicate]
    norm_num [chanRun, stepChan, smoothClamp, constrain, alpha, List.replicate]
  · intro l
    show (if 5 < maxPort ∧ (runUpdates (construct 0x5A 3 (fun _ => 710) blank) l
        ).activePort.testBit 5 then
      (runUpdates (construct 0x5A 3 (fun _ => 710) blank) l).currentTouched.testBit 5
      else false) = false
    rw [runUpdates_activePort]
    rw [if_neg (by decide)]

end MPR121
